import Mathlib

/-!
Shallow embedding of the visual-regression engine of the ai-testing-agent
repository (files `src/utils/cv_utils.py` and `src/automation/visual_testing.py`),
together with theorems settling the frozen claims about it.

Conventions of the embedding:
* 8-bit machine integers are `ℕ` (all source values lie in 0..255 and no
  arithmetic below overflows); Python floats are `ℚ`.
* An OpenCV colour image is a list of rows, each row a list of pixels in BGR
  channel order, matching the `numpy` arrays returned by `cv2.imread`.
* Python dictionaries assembled with optional keys are structures with
  `Option` fields; an absent key is `none`.
* The filesystem touched by the code (three sibling screenshot directories)
  is a function from structured paths to optional file contents; `cv2.imread`
  of a missing or undecodable file is `none`.
-/

namespace VisualAgent

/-- A pixel in OpenCV BGR channel order: (blue, green, red), each 0..255. -/
abbrev Pixel := ℕ × ℕ × ℕ

/-- A colour raster image: list of rows of BGR pixels. -/
abbrev Image := List (List Pixel)

/-- A single-channel (grayscale) image: list of rows of 0..255 intensities. -/
abbrev GrayImage := List (List ℕ)

/-- Image height, `img.shape[0]` in the source. -/
def imgHeight (img : Image) : ℕ := img.length

/-- Image width, `img.shape[1]` in the source (rows are uniform for decoded
images, so the first row's length is the width). -/
def imgWidth (img : Image) : ℕ := (img.headD []).length

/-- The spatial part of `numpy`'s `img.shape`.  The source compares
`img1.shape != img2.shape` on colour images whose channel count is always 3,
so shape equality is equality of `(height, width)`. -/
def shape (img : Image) : ℕ × ℕ := (imgHeight img, imgWidth img)

/-- OpenCV's fixed-point BGR→gray conversion used by
`cv2.cvtColor(·, cv2.COLOR_BGR2GRAY)`: the documented weights
0.299·R + 0.587·G + 0.114·B computed as
`(1868*B + 9617*G + 4899*R + 8192) >> 14`. -/
def bgr2grayPix (p : Pixel) : ℕ :=
  (1868 * p.1 + 9617 * p.2.1 + 4899 * p.2.2 + 8192) / 16384

/-- `cv2.cvtColor(img, cv2.COLOR_BGR2GRAY)`. -/
def cvtGray (img : Image) : GrayImage := img.map (fun row => row.map bgr2grayPix)

/-- Per-channel absolute difference of two pixels (`cv2.absdiff` on uint8 is
the exact absolute difference). -/
def absDiffPix (p q : Pixel) : Pixel :=
  (max p.1 q.1 - min p.1 q.1,
   max p.2.1 q.2.1 - min p.2.1 q.2.1,
   max p.2.2 q.2.2 - min p.2.2 q.2.2)

/-- `cv2.absdiff(img1, img2)` on two images of equal shape. -/
def absdiff (a b : Image) : Image :=
  List.zipWith (List.zipWith absDiffPix) a b

/-- `cv2.threshold(gray, 30, 255, cv2.THRESH_BINARY)`: strictly above 30
becomes 255, everything else 0. -/
def threshBin30 (g : GrayImage) : GrayImage :=
  g.map (fun row => row.map (fun v => if 30 < v then 255 else 0))

/-- `ComputerVisionUtils._create_diff_mask`: absolute per-channel difference,
converted to luminance, thresholded at intensity cutoff 30. -/
def create_diff_mask (img1 img2 : Image) : GrayImage :=
  threshBin30 (cvtGray (absdiff img1 img2))

/-- `np.sum(mask)` (numpy accumulates uint8 sums in a wide integer, so the
sum is exact). -/
def maskSum (m : GrayImage) : ℕ := (m.map List.sum).sum

/-- The recolouring step of `ComputerVisionUtils._create_diff_image`:
`diff_img = img2.copy(); diff_img[mask > 0] = [0, 0, 255]`, i.e. pixels whose
mask value is nonzero are painted pure red (BGR (0,0,255)). -/
def highlightDiff (img : Image) (m : GrayImage) : Image :=
  List.zipWith
    (List.zipWith (fun (p : Pixel) (v : ℕ) =>
      if 0 < v then ((0 : ℕ), (0 : ℕ), (255 : ℕ)) else p))
    img m

/-- `cv2.resize(img, (w, h))`.  OpenCV interpolates bilinearly; the sampling
is modelled as nearest-neighbour, which agrees with OpenCV on the output
dimensions — the theorems below depend only on those dimensions, never on
interpolated pixel values. -/
def cvResize (img : Image) (w h : ℕ) : Image :=
  (List.range h).map (fun y =>
    (List.range w).map (fun x =>
      (img.getD (y * imgHeight img / h) []).getD (x * imgWidth img / w)
        ((0 : ℕ), (0 : ℕ), (0 : ℕ))))

/-- Number of nonzero channel entries of one pixel, as counted by
`np.count_nonzero` on a 3-channel array. -/
def countNonzeroPix (p : Pixel) : ℕ :=
  (if p.1 ≠ 0 then 1 else 0) + (if p.2.1 ≠ 0 then 1 else 0) +
  (if p.2.2 ≠ 0 then 1 else 0)

/-- `np.count_nonzero` over a whole colour image. -/
def count_nonzero (img : Image) : ℕ :=
  (img.map (fun row => (row.map countNonzeroPix).sum)).sum

/-- The `ImportError` fallback branch of
`ComputerVisionUtils._calculate_similarity`:
`1 - count_nonzero(absdiff(img1, img2)) / (h * w * 3)` with the pixel count
taken from `img1.shape`. -/
def fallbackSimilarity (img1 img2 : Image) : ℚ :=
  1 - (count_nonzero (absdiff img1 img2) : ℚ)
        / ((imgHeight img1 * imgWidth img1 * 3 : ℕ) : ℚ)

/-- skimage's SSIM constant `C1 = (K1 * data_range)^2 = (0.01 * 255)^2`. -/
def ssimC1 : ℚ := (51 / 20) ^ 2

/-- skimage's SSIM constant `C2 = (K2 * data_range)^2 = (0.03 * 255)^2`. -/
def ssimC2 : ℚ := (153 / 20) ^ 2

/-- The SSIM value of one full window of pixel samples, exactly as computed by
`skimage.metrics.structural_similarity` with its default parameters
(`win_size = 7`, uniform windows, sample covariance normalisation
`NP/(NP-1)` with `NP = 49`, `data_range = 255` for uint8 input):
S = ((2·ux·uy + C1)(2·vxy + C2)) / ((ux² + uy² + C1)(vx + vy + C2)). -/
def ssimGlobal (xs ys : List ℚ) : ℚ :=
  let n : ℚ := (xs.length : ℚ)
  let ux := xs.sum / n
  let uy := ys.sum / n
  let uxx := (xs.map (fun a => a * a)).sum / n
  let uyy := (ys.map (fun a => a * a)).sum / n
  let uxy := (List.zipWith (fun a b => a * b) xs ys).sum / n
  let vx := (n / (n - 1)) * (uxx - ux * ux)
  let vy := (n / (n - 1)) * (uyy - uy * uy)
  let vxy := (n / (n - 1)) * (uxy - ux * uy)
  ((2 * ux * uy + ssimC1) * (2 * vxy + ssimC2)) /
    ((ux * ux + uy * uy + ssimC1) * (vx + vy + ssimC2))

/-- Grayscale sample at (row i, column j) as a rational (out-of-range reads
never occur for the windows enumerated below). -/
def grayAt (g : GrayImage) (i j : ℕ) : ℚ := (((g.getD i []).getD j 0 : ℕ) : ℚ)

/-- The 49 samples of the 7×7 window whose top-left corner is (i, j). -/
def ssimWindow (g : GrayImage) (i j : ℕ) : List ℚ :=
  (List.range 7).flatMap (fun a => (List.range 7).map (fun b => grayAt g (i + a) (j + b)))

/-- The per-window SSIM values surviving skimage's `crop(S, pad)` with
`pad = 3`: windows fully interior to an h×w image, one for each top-left
corner in `[0, h-7] × [0, w-7]` (padding mode is irrelevant for these). -/
def ssimValues (g1 g2 : GrayImage) (h w : ℕ) : List ℚ :=
  (List.range (h - 6)).flatMap (fun i =>
    (List.range (w - 6)).map (fun j =>
      ssimGlobal (ssimWindow g1 i j) (ssimWindow g2 i j)))

/-- `skimage.metrics.structural_similarity(gray1, gray2)` on two equal-shape
uint8 grayscale images: raises `ValueError` when either image dimension is
below the 7-pixel window (surfaced here as `Except.error`, which the caller's
`except Exception` turns into an error result), otherwise the mean of the
cropped per-window SSIM map. -/
def ssimImage (g1 g2 : GrayImage) : Except String ℚ :=
  if g1.length < 7 ∨ (g1.headD []).length < 7 then
    Except.error "win_size exceeds image extent"
  else
    let vals := ssimValues g1 g2 g1.length (g1.headD []).length
    Except.ok (vals.sum / (vals.length : ℚ))

/-- `ComputerVisionUtils._calculate_similarity`.  `hasSkimage` models whether
`from skimage.metrics import structural_similarity` succeeds; when it raises
`ImportError` the code falls back to the pixel-count comparison. -/
def calculate_similarity (hasSkimage : Bool) (img1 img2 : Image) : Except String ℚ :=
  if hasSkimage then ssimImage (cvtGray img1) (cvtGray img2)
  else Except.ok (fallbackSimilarity img1 img2)

/-- The three sibling screenshot directories created by `VisualTester.__init__`
under `config.screenshots_dir`. -/
inductive ScreenDir
  | baselines
  | current
  | diffs
deriving DecidableEq

/-- A file path in the screenshot area, split the way `pathlib.Path` is used by
the source: directory, stem and extension (`path.parent / (path.stem + ...)`). -/
structure FPath where
  dir : ScreenDir
  stem : String
  ext : String
deriving DecidableEq

/-- Contents of a file on disk: a decodable image, or bytes `cv2.imread`
cannot decode. -/
inductive FileData
  | img (i : Image)
  | corrupt
deriving DecidableEq

/-- The screenshot filesystem: path → contents, `none` when no file exists. -/
abbrev FS := FPath → Option FileData

/-- `cv2.imread(path)`: `None` (here `none`) for a missing or undecodable
file, the decoded image otherwise. -/
def imread (fs : FS) (p : FPath) : Option Image :=
  match fs p with
  | some (FileData.img i) => some i
  | _ => none

/-- `cv2.imwrite` / `shutil.copy` target update. -/
def fsWrite (fs : FS) (p : FPath) (d : FileData) : FS :=
  fun q => if q = p then some d else fs q

/-- The state of `ComputerVisionUtils` (its only attribute). -/
structure ComputerVisionUtils where
  visual_threshold : ℚ

/-- `ComputerVisionUtils.__init__`, which sets `visual_threshold = 0.95`. -/
def CVUtilsDefault : ComputerVisionUtils := ⟨95 / 100⟩

/-- The result dictionary of `ComputerVisionUtils.compare_screenshots`; absent
keys are `none`. -/
structure CVResult where
  similarity : Option ℚ := none
  passed : Option Bool := none
  diff_image : Option FPath := none
  differences_found : Option Bool := none
  error : Option String := none
deriving DecidableEq

/-- The resize step of `compare_screenshots`:
`if img1.shape != img2.shape: img2 = cv2.resize(img2, (img1.shape[1], img1.shape[0]))`. -/
def resizeIfNeeded (img1 img2 : Image) : Image :=
  if shape img1 ≠ shape img2 then cvResize img2 (imgWidth img1) (imgHeight img1)
  else img2

/-- The output path of `ComputerVisionUtils._create_diff_image`:
`original_path.parent / (original_path.stem + "_diff.png")`. -/
def diffImagePath (p : FPath) : FPath := ⟨p.dir, p.stem ++ "_diff", ".png"⟩

/-- `ComputerVisionUtils.compare_screenshots(image1_path, image2_path)`:
decode both inputs (error dictionary if either fails), resize the second to
the first's dimensions if shapes differ, compute similarity (an exception
from the similarity routine is caught by the surrounding `try` and becomes an
error dictionary), build the diff mask, write the highlighted diff image next
to the first input, and assemble the result dictionary. -/
def compare_screenshots (cv : ComputerVisionUtils) (hasSkimage : Bool) (fs : FS)
    (image1_path image2_path : FPath) : CVResult × FS :=
  match imread fs image1_path, imread fs image2_path with
  | some img1, some img2 =>
    let img2r := resizeIfNeeded img1 img2
    match calculate_similarity hasSkimage img1 img2r with
    | Except.error e => ({ error := some e }, fs)
    | Except.ok s =>
      let mask := create_diff_mask img1 img2r
      let dpath := diffImagePath image1_path
      ({ similarity := some s,
         passed := some (decide (cv.visual_threshold ≤ s)),
         diff_image := some dpath,
         differences_found := some (decide (0 < maskSum mask)),
         error := none },
       fsWrite fs dpath (FileData.img (highlightDiff img2r mask)))
  | _, _ => ({ error := some "Could not load images" }, fs)

/-- The state of `VisualTester` relevant to comparison: its
`ComputerVisionUtils` instance and whether skimage imports. -/
structure VisualTester where
  cv_utils : ComputerVisionUtils
  hasSkimage : Bool

/-- The name-normalising transform `test_name.replace(' ', '_').lower()`,
applied per character (spaces become underscores, everything else is
lower-cased; the two source steps commute into this single map). -/
def normalizeName (s : String) : String :=
  ⟨s.data.map (fun c => if c = ' ' then '_' else c.toLower)⟩

/-- The derived baseline path `baseline_dir / (normalized + ".png")`. -/
def baselinePath (test_name : String) : FPath :=
  ⟨ScreenDir.baselines, normalizeName test_name, ".png"⟩

/-- The dictionary returned by `VisualTester._compare_with_baseline`; each of
its three `return` statements populates a subset of the keys, absent keys are
`none`.  The source's `diff_path` is the empty string when no visualization
was produced; that sentinel is `none` here. -/
structure BaselineResult where
  passed : Bool
  similarity : Option ℚ := none
  baseline_path : FPath
  first_run : Option Bool := none
  message : Option String := none
  diff_path : Option FPath := none
  differences_found : Option Bool := none
  error : Option String := none
deriving DecidableEq

/-- The three-panel composite built by
`VisualTester._create_side_by_side_comparison`: [baseline][current][current
with mask pixels painted red], rows concatenated (the `cv2.putText` label
overlay is not modelled; no claim depends on panel contents). -/
def sideBySide (baseline current : Image) : Image :=
  let mask := create_diff_mask baseline current
  let diffColored := highlightDiff current mask
  List.zipWith (fun (brow : List Pixel) (cd : List Pixel × List Pixel) =>
      brow ++ cd.1 ++ cd.2)
    baseline (List.zipWith (fun a b => (a, b)) current diffColored)

/-- `VisualTester._create_diff_visualization`: read both images (empty-string
result if either fails to decode), resize the current to the baseline's
dimensions if needed, write the side-by-side composite into the diffs
directory under `normalized_name + "_diff.png"`. -/
def create_diff_visualization (fs : FS) (baseline_path current_path : FPath)
    (test_name : String) : Option FPath × FS :=
  let dpath : FPath := ⟨ScreenDir.diffs, normalizeName test_name ++ "_diff", ".png"⟩
  match imread fs baseline_path, imread fs current_path with
  | some bimg, some cimg =>
    let cimg2 := resizeIfNeeded bimg cimg
    (some dpath, fsWrite fs dpath (FileData.img (sideBySide bimg cimg2)))
  | _, _ => (none, fs)

/-- `VisualTester._compare_with_baseline(test_name, current_path)`.
If no baseline file exists: `shutil.copy(current_path, baseline_path)` (a
missing source file raises `FileNotFoundError`, modelled as `none`, which
propagates to the caller) and return the first-run dictionary.  Otherwise
run `compare_screenshots`; on its error dictionary return a failure record;
otherwise optionally build the diff visualization and assemble the result
with `comparison.get(key, default)` semantics. -/
def compare_with_baseline (vt : VisualTester) (fs : FS) (test_name : String)
    (current_path : FPath) : Option (BaselineResult × FS) :=
  let bpath := baselinePath test_name
  if (fs bpath).isNone then
    match fs current_path with
    | none => none
    | some d =>
      some ({ passed := true, similarity := some 1, baseline_path := bpath,
              first_run := some true,
              message := some "Baseline screenshot created" },
            fsWrite fs bpath d)
  else
    let cmp := compare_screenshots vt.cv_utils vt.hasSkimage fs bpath current_path
    match cmp.1.error with
    | some e =>
      some ({ passed := false, baseline_path := bpath, error := some e }, cmp.2)
    | none =>
      let dv :=
        if cmp.1.differences_found.getD false then
          create_diff_visualization cmp.2 bpath current_path test_name
        else (none, cmp.2)
      some ({ passed := cmp.1.passed.getD false,
              similarity := some (cmp.1.similarity.getD 0),
              baseline_path := bpath,
              diff_path := dv.1,
              differences_found := some (cmp.1.differences_found.getD false) },
            dv.2)

/-- The per-test dictionary assembled on the non-exception path of
`VisualTester._run_single_visual_test` (note: it has no error key; every
value is read from the comparison result with `.get(key, default)`). -/
structure TestRecord where
  name : String
  url : String
  status : String
  similarity : ℚ
  current_screenshot : FPath
  baseline_screenshot : FPath
  diff_screenshot : Option FPath
  differences_found : Bool
  error : Option String := none
deriving DecidableEq

/-- The result-assembly tail of `VisualTester._run_single_visual_test`:
`status = "passed" if comparison_result.get("passed", False) else "failed"`,
`similarity = comparison_result.get("similarity", 0)`, and so on. -/
def run_single_result (test_name url : String) (current_screenshot : FPath)
    (cr : BaselineResult) : TestRecord :=
  { name := test_name, url := url,
    status := if cr.passed then "passed" else "failed",
    similarity := cr.similarity.getD 0,
    current_screenshot := current_screenshot,
    baseline_screenshot := cr.baseline_path,
    diff_screenshot := cr.diff_path,
    differences_found := cr.differences_found.getD false,
    error := none }

/-- A bounding rectangle as returned by `cv2.boundingRect(contour)`. -/
structure Rect where
  x : ℕ
  y : ℕ
  w : ℕ
  h : ℕ
deriving DecidableEq

/-- One detected element dictionary: type, bounds and fixed confidence. -/
structure ElementCandidate where
  etype : String
  bounds : Rect
  confidence : ℚ
deriving DecidableEq

/-- The filter of `ComputerVisionUtils._detect_buttons`:
`20 < w < 300 and 20 < h < 80 and 0.2 < h/w < 2` (all bounds strict;
`h/w` is Python float division, exact here as a rational — for bounding-box
integers in these bands the float comparison agrees with the rational one). -/
def buttonCond (w h : ℕ) : Bool :=
  decide (20 < w) && decide (w < 300) && decide (20 < h) && decide (h < 80) &&
  decide ((1 / 5 : ℚ) < (h : ℚ) / (w : ℚ)) && decide (((h : ℚ) / (w : ℚ)) < 2)

/-- `ComputerVisionUtils._detect_buttons` over the bounding rectangles of the
traversed contours. -/
def detect_buttons (contours : List Rect) : List ElementCandidate :=
  contours.filterMap (fun r =>
    if buttonCond r.w r.h then some ⟨"button", r, 7 / 10⟩ else none)

/-- The filter of `ComputerVisionUtils._detect_text_fields`:
`50 < w < 400 and 15 < h < 50 and w/h > 2`. -/
def inputCond (w h : ℕ) : Bool :=
  decide (50 < w) && decide (w < 400) && decide (15 < h) && decide (h < 50) &&
  decide ((2 : ℚ) < (w : ℚ) / (h : ℚ))

/-- `ComputerVisionUtils._detect_text_fields` over the bounding rectangles of
the contours of the Canny edge map. -/
def detect_text_fields (contours : List Rect) : List ElementCandidate :=
  contours.filterMap (fun r =>
    if inputCond r.w r.h then some ⟨"input", r, 6 / 10⟩ else none)

/-- The filter of `ComputerVisionUtils._detect_images`: `w > 100 and h > 100`. -/
def imageCond (w h : ℕ) : Bool := decide (100 < w) && decide (100 < h)

/-- `ComputerVisionUtils._detect_images`. -/
def detect_images (contours : List Rect) : List ElementCandidate :=
  contours.filterMap (fun r =>
    if imageCond r.w r.h then some ⟨"image", r, 5 / 10⟩ else none)

/-- `ComputerVisionUtils.detect_ui_elements`: buttons, then text fields (from
the edge-map contours), then images, concatenated. -/
def detect_ui_elements (contours edgeContours : List Rect) : List ElementCandidate :=
  detect_buttons contours ++ detect_text_fields edgeContours ++ detect_images contours

/-- One browser's entry in the `results` dictionary of
`VisualTester.run_cross_browser_visual_test`: a status string plus, on
success, the screenshot path. -/
structure BrowserCapture where
  status : String
  screenshot : Option FPath := none
  error : Option String := none
deriving DecidableEq

/-- The `browser_screenshots` comprehension of
`VisualTester._compare_cross_browser_screenshots`: keep browsers whose
result has `status == 'success'` and a screenshot key. -/
def successShots (browser_results : List (String × BrowserCapture)) :
    List (String × FPath) :=
  browser_results.filterMap (fun br =>
    if br.2.status = "success" then br.2.screenshot.map (fun s => (br.1, s))
    else none)

/-- The index pattern of the double loop
`for i in range(len(browsers)): for j in range(i+1, len(browsers))`:
every unordered pair, first component earlier in the list. -/
def upperPairs {α : Type} : List α → List (α × α)
  | [] => []
  | x :: xs => (xs.map (fun y => (x, y))) ++ upperPairs xs

/-- One entry of the cross-browser comparison dictionary.  The `except`
branch of the source's per-pair `try` is unreachable in this embedding
because `compare_screenshots` returns its errors instead of raising, so
`error` stays `none`. -/
structure PairEntry where
  similarity : ℚ
  passed : Bool
  differences_found : Bool
  diff_image : Option FPath := none
  error : Option String := none
deriving DecidableEq

/-- The body of the pair loop of
`VisualTester._compare_cross_browser_screenshots`: compare the two
screenshots, record similarity/passed/differences with `.get` defaults, and
when differences were found re-read both images and write a side-by-side
diff named `test_name + "_" + key + "_diff.png"` into the diffs directory. -/
def crossPairCompare (cv : ComputerVisionUtils) (hasSkimage : Bool)
    (test_name : String) (fs : FS) (pr : (String × FPath) × (String × FPath)) :
    (String × PairEntry) × FS :=
  let key := pr.1.1 ++ "_vs_" ++ pr.2.1
  let cmp := compare_screenshots cv hasSkimage fs pr.1.2 pr.2.2
  let entry : PairEntry :=
    { similarity := cmp.1.similarity.getD 0,
      passed := cmp.1.passed.getD false,
      differences_found := cmp.1.differences_found.getD false }
  if cmp.1.differences_found.getD false then
    match imread cmp.2 pr.1.2, imread cmp.2 pr.2.2 with
    | some bimg, some cimg =>
      let cimg2 := resizeIfNeeded bimg cimg
      let dpath : FPath := ⟨ScreenDir.diffs, test_name ++ "_" ++ key ++ "_diff", ".png"⟩
      ((key, { entry with diff_image := some dpath }),
       fsWrite cmp.2 dpath (FileData.img (sideBySide bimg cimg2)))
    | _, _ => ((key, entry), cmp.2)
  else ((key, entry), cmp.2)

/-- Sequential execution of the pair loop, threading the filesystem. -/
def crossCompareGo (cv : ComputerVisionUtils) (hasSkimage : Bool)
    (test_name : String) :
    FS → List ((String × FPath) × (String × FPath)) →
    List (String × PairEntry) × FS
  | fs, [] => ([], fs)
  | fs, pr :: rest =>
    let head := crossPairCompare cv hasSkimage test_name fs pr
    let tail := crossCompareGo cv hasSkimage test_name head.2 rest
    (head.1 :: tail.1, tail.2)

/-- `VisualTester._compare_cross_browser_screenshots(browser_results,
test_name)`: filter to successful captures, run the upper-triangular pair
loop, and return the comparison dictionary (as an insertion-ordered
association list). -/
def compare_cross_browser_screenshots (cv : ComputerVisionUtils)
    (hasSkimage : Bool) (browser_results : List (String × BrowserCapture))
    (test_name : String) (fs : FS) : List (String × PairEntry) × FS :=
  crossCompareGo cv hasSkimage test_name fs (upperPairs (successShots browser_results))

/-! ### Concrete instances used by witnesses and counterexamples -/

/-- A 1×1 all-black image. -/
def blackPix1 : Image := [[((0 : ℕ), (0 : ℕ), (0 : ℕ))]]

/-- A 1×1 all-white image. -/
def whitePix1 : Image := [[((255 : ℕ), (255 : ℕ), (255 : ℕ))]]

/-- An n×n all-white image. -/
def whiteSquare (n : ℕ) : Image :=
  (List.range n).map (fun _ => (List.range n).map (fun _ => ((255 : ℕ), (255 : ℕ), (255 : ℕ))))

/-- An n×n all-black image. -/
def blackSquare (n : ℕ) : Image :=
  (List.range n).map (fun _ => (List.range n).map (fun _ => ((0 : ℕ), (0 : ℕ), (0 : ℕ))))

/-- A 7×7 black/white checkerboard (black at even i+j). -/
def checkerA : Image :=
  (List.range 7).map (fun i => (List.range 7).map (fun j =>
    if (i + j) % 2 = 0 then ((0 : ℕ), (0 : ℕ), (0 : ℕ))
    else ((255 : ℕ), (255 : ℕ), (255 : ℕ))))

/-- The inverted 7×7 checkerboard (white at even i+j). -/
def checkerB : Image :=
  (List.range 7).map (fun i => (List.range 7).map (fun j =>
    if (i + j) % 2 = 0 then ((255 : ℕ), (255 : ℕ), (255 : ℕ))
    else ((0 : ℕ), (0 : ℕ), (0 : ℕ))))

/-! ### General helper lemmas -/

/-- A list of naturals has positive sum iff some member is nonzero. -/
theorem list_sum_pos_iff (l : List ℕ) : 0 < l.sum ↔ ∃ x ∈ l, x ≠ 0 := by
  constructor
  · intro h
    by_contra hc
    push_neg at hc
    have : l.sum = 0 := List.sum_eq_zero_iff.mpr (fun x hx => hc x hx)
    omega
  · intro ⟨x, hx, hx0⟩
    rcases Nat.eq_zero_or_pos l.sum with h0 | h0
    · exact absurd (List.sum_eq_zero_iff.mp h0 x hx) hx0
    · exact h0

/-- The mask sum is positive iff the mask has a nonzero element. -/
theorem maskSum_pos_iff (m : GrayImage) :
    0 < maskSum m ↔ ∃ row ∈ m, ∃ v ∈ row, v ≠ 0 := by
  unfold maskSum
  rw [list_sum_pos_iff]
  constructor
  · intro ⟨x, hx, hx0⟩
    obtain ⟨row, hrow, rfl⟩ := List.mem_map.mp hx
    obtain ⟨v, hv, hv0⟩ := (list_sum_pos_iff row).mp (by omega)
    exact ⟨row, hrow, v, hv, hv0⟩
  · intro ⟨row, hrow, v, hv, hv0⟩
    refine ⟨row.sum, List.mem_map.mpr ⟨row, hrow, rfl⟩, ?_⟩
    have := (list_sum_pos_iff row).mpr ⟨v, hv, hv0⟩
    omega

/-- A path never equals its own derived diff-image path (the stems differ in
length). -/
theorem ne_diffImagePath (p : FPath) : p ≠ diffImagePath p := by
  intro h
  have hstem : p.stem = p.stem ++ "_diff" := congrArg FPath.stem h
  have hlen := congrArg String.length hstem
  rw [String.length_append] at hlen
  have : ("_diff" : String).length = 5 := by decide
  omega

/-- `compare_screenshots` touches no path other than the first input's
derived diff path. -/
theorem compare_screenshots_preserves (cv : ComputerVisionUtils) (hasSk : Bool)
    (fs : FS) (p1 p2 q : FPath) (hq : q ≠ diffImagePath p1) :
    (compare_screenshots cv hasSk fs p1 p2).2 q = fs q := by
  unfold compare_screenshots
  split
  · dsimp only
    split
    · rfl
    · simp only [fsWrite]
      rw [if_neg hq]
  · rfl

/-- `create_diff_visualization` writes only into the diffs directory. -/
theorem create_diff_visualization_preserves (fs : FS) (b c : FPath)
    (test_name : String) (q : FPath) (hq : q.dir ≠ ScreenDir.diffs) :
    (create_diff_visualization fs b c test_name).2 q = fs q := by
  unfold create_diff_visualization
  rcases imread fs b with _ | bimg <;> rcases imread fs c with _ | cimg <;> try rfl
  have : q ≠ (⟨ScreenDir.diffs, normalizeName test_name ++ "_diff", ".png"⟩ : FPath) := by
    intro h
    exact hq (by rw [h])
  simp [fsWrite, this]

/-! ### C5: detector bounding-box bands -/

/-- The aspect-ratio test of `_detect_buttons` fails at exactly 250×50:
50/250 is exactly the strict lower bound 0.2. -/
theorem buttonCond_250_50 : buttonCond 250 50 = false := by
  simp only [buttonCond]
  norm_num

/-- A 249×50 box does satisfy all the button bands. -/
theorem buttonCond_249_50 : buttonCond 249 50 = true := by
  simp only [buttonCond]
  norm_num

/-- C5 counterexample: the claim says a 250-wide 50-high bounding box is
classified as a button candidate, but `_detect_buttons` requires
`0.2 < h/w` strictly and `50/250 = 0.2`, so the detector returns no button
for that contour. -/
theorem C5_counterexample :
    detect_buttons [⟨0, 0, 250, 50⟩] = [] := by
  simp [detect_buttons, buttonCond_250_50]

/-- C5 (amended): a 250×50 bounding box is excluded from the button category
(its aspect h/w equals the strict lower bound 0.2), while the nearby 249×50
box is a button candidate; a 120×120 box is an image candidate and not a
button; a 20×20 box is excluded from both categories (all bands strict). -/
theorem C5_detector_bands :
    detect_buttons [⟨0, 0, 250, 50⟩] = []
    ∧ detect_buttons [⟨0, 0, 249, 50⟩]
        = [⟨"button", ⟨0, 0, 249, 50⟩, 7 / 10⟩]
    ∧ detect_images [⟨0, 0, 120, 120⟩]
        = [⟨"image", ⟨0, 0, 120, 120⟩, 5 / 10⟩]
    ∧ detect_buttons [⟨0, 0, 120, 120⟩] = []
    ∧ detect_buttons [⟨0, 0, 20, 20⟩] = []
    ∧ detect_images [⟨0, 0, 20, 20⟩] = [] := by
  have h120 : buttonCond 120 120 = false := by
    simp only [buttonCond]
    norm_num
  have h20 : buttonCond 20 20 = false := by
    simp only [buttonCond]
    norm_num
  refine ⟨C5_counterexample, ?_, ?_, ?_, ?_, ?_⟩
  · simp [detect_buttons, buttonCond_249_50]
  · simp [detect_images, imageCond]
  · simp [detect_buttons, h120]
  · simp [detect_buttons, h20]
  · simp [detect_images, imageCond]

/-! ### C3: threshold semantics -/

/-- C3: whenever `compare_screenshots` succeeds, the `passed` field is exactly
the inclusive comparison `similarity >= visual_threshold` (in particular
similarity equal to the threshold passes), and the constructor default for
the threshold is 0.95. -/
theorem C3_threshold_boundary (cv : ComputerVisionUtils) (hasSk : Bool)
    (fs : FS) (p1 p2 : FPath) (img1 img2 : Image)
    (h1 : imread fs p1 = some img1) (h2 : imread fs p2 = some img2)
    (hok : (compare_screenshots cv hasSk fs p1 p2).1.error = none) :
    (∃ s, (compare_screenshots cv hasSk fs p1 p2).1.similarity = some s
      ∧ (compare_screenshots cv hasSk fs p1 p2).1.passed
          = some (decide (cv.visual_threshold ≤ s))
      ∧ (s = cv.visual_threshold →
          (compare_screenshots cv hasSk fs p1 p2).1.passed = some true))
    ∧ CVUtilsDefault.visual_threshold = 95 / 100 := by
  refine ⟨?_, rfl⟩
  simp only [compare_screenshots, h1, h2] at hok ⊢
  rcases hcalc : calculate_similarity hasSk img1 (resizeIfNeeded img1 img2) with e | s
  · rw [hcalc] at hok
    simp at hok
  · simp only [hcalc]
    refine ⟨s, rfl, rfl, fun hs => ?_⟩
    simp [hs]

/-- C3 witness: a concrete comparison of a 1×1 black current against a 1×1
white baseline under the fallback metric. -/
def fsBW : FS := fun p =>
  match p.dir with
  | ScreenDir.baselines => some (FileData.img whitePix1)
  | ScreenDir.current => some (FileData.img blackPix1)
  | ScreenDir.diffs => none

/-- Path of the C3 witness baseline file. -/
def pBWa : FPath := ⟨ScreenDir.baselines, "a", ".png"⟩

/-- Path of the C3 witness current file. -/
def pBWb : FPath := ⟨ScreenDir.current, "b", ".png"⟩

/-- Witness for C3 at a concrete decoded pair. -/
theorem C3_witness :
    imread fsBW pBWa = some whitePix1
    ∧ imread fsBW pBWb = some blackPix1
    ∧ (compare_screenshots CVUtilsDefault false fsBW pBWa pBWb).1.error = none
    ∧ ((∃ s, (compare_screenshots CVUtilsDefault false fsBW pBWa pBWb).1.similarity = some s
        ∧ (compare_screenshots CVUtilsDefault false fsBW pBWa pBWb).1.passed
            = some (decide (CVUtilsDefault.visual_threshold ≤ s))
        ∧ (s = CVUtilsDefault.visual_threshold →
            (compare_screenshots CVUtilsDefault false fsBW pBWa pBWb).1.passed = some true))
      ∧ CVUtilsDefault.visual_threshold = 95 / 100) :=
  ⟨rfl, rfl, rfl,
    C3_threshold_boundary CVUtilsDefault false fsBW pBWa pBWb whitePix1 blackPix1 rfl rfl rfl⟩

/-! ### C7: differences_found semantics -/

/-- C7: for every successful comparison, `differences_found` is true exactly
when the derived diff mask (per-channel absolute difference, luminance
conversion, binary threshold at 30) has a nonzero element, and the value of
`differences_found` does not depend on the configured threshold. -/
theorem C7_differences_found (cv cv' : ComputerVisionUtils) (hasSk : Bool)
    (fs : FS) (p1 p2 : FPath) (img1 img2 : Image)
    (h1 : imread fs p1 = some img1) (h2 : imread fs p2 = some img2)
    (hok : (compare_screenshots cv hasSk fs p1 p2).1.error = none) :
    ((compare_screenshots cv hasSk fs p1 p2).1.differences_found = some true ↔
      ∃ row ∈ create_diff_mask img1 (resizeIfNeeded img1 img2), ∃ v ∈ row, v ≠ 0)
    ∧ (compare_screenshots cv hasSk fs p1 p2).1.differences_found
        = (compare_screenshots cv' hasSk fs p1 p2).1.differences_found := by
  simp only [compare_screenshots, h1, h2] at hok ⊢
  rcases hcalc : calculate_similarity hasSk img1 (resizeIfNeeded img1 img2) with e | s
  · rw [hcalc] at hok
    simp at hok
  · simp only [hcalc]
    constructor
    · simp only [Option.some.injEq, decide_eq_true_eq]
      exact maskSum_pos_iff _
    · trivial

/-- Witness for C7 at a concrete decoded pair (a black pixel against a white
pixel; the mask is nonzero there), under two different thresholds. -/
theorem C7_witness :
    imread fsBW pBWa = some whitePix1
    ∧ imread fsBW pBWb = some blackPix1
    ∧ (compare_screenshots CVUtilsDefault false fsBW pBWa pBWb).1.error = none
    ∧ (((compare_screenshots CVUtilsDefault false fsBW pBWa pBWb).1.differences_found = some true ↔
        ∃ row ∈ create_diff_mask whitePix1 (resizeIfNeeded whitePix1 blackPix1),
          ∃ v ∈ row, v ≠ 0)
      ∧ (compare_screenshots CVUtilsDefault false fsBW pBWa pBWb).1.differences_found
          = (compare_screenshots ⟨1 / 2⟩ false fsBW pBWa pBWb).1.differences_found) :=
  ⟨rfl, rfl, rfl,
    C7_differences_found CVUtilsDefault ⟨1 / 2⟩ false fsBW pBWa pBWb whitePix1 blackPix1
      rfl rfl rfl⟩

/-! ### C6: cross-browser matrix -/

/-- The pair loop visits `choose n 2` index pairs. -/
theorem upperPairs_length {α : Type} (l : List α) :
    (upperPairs l).length = l.length.choose 2 := by
  induction l with
  | nil => rfl
  | cons x xs ih =>
    simp [upperPairs, ih, Nat.choose_succ_succ, Nat.choose_one_right, Nat.add_comm]

/-- Both components of an upper-triangular pair are list members. -/
theorem upperPairs_mem {α : Type} {l : List α} {a b : α}
    (h : (a, b) ∈ upperPairs l) : a ∈ l ∧ b ∈ l := by
  induction l with
  | nil => simp [upperPairs] at h
  | cons x xs ih =>
    simp only [upperPairs, List.mem_append, List.mem_map] at h
    rcases h with ⟨y, hy, heq⟩ | h
    · injection heq with hx hy2
      subst hx
      subst hy2
      exact ⟨List.mem_cons_self x xs, List.mem_cons_of_mem _ hy⟩
    · obtain ⟨ha, hb⟩ := ih h
      exact ⟨List.mem_cons_of_mem _ ha, List.mem_cons_of_mem _ hb⟩

/-- Every filtered screenshot comes from a browser entry with a successful
capture. -/
theorem successShots_mem {rs : List (String × BrowserCapture)} {b : String}
    {p : FPath} (h : (b, p) ∈ successShots rs) :
    ∃ c, (b, c) ∈ rs ∧ c.status = "success" ∧ c.screenshot = some p := by
  unfold successShots at h
  rw [List.mem_filterMap] at h
  obtain ⟨⟨b', c⟩, hmem, heq⟩ := h
  by_cases hs : c.status = "success"
  · rw [if_pos hs] at heq
    rcases hshot : c.screenshot with _ | s
    · rw [hshot] at heq
      simp at heq
    · rw [hshot] at heq
      simp only [Option.map_some', Option.some.injEq, Prod.mk.injEq] at heq
      obtain ⟨rfl, rfl⟩ := heq
      exact ⟨c, hmem, hs, hshot⟩
  · rw [if_neg hs] at heq
    simp at heq

/-- The pair loop emits one entry per visited pair. -/
theorem crossCompareGo_length (cv : ComputerVisionUtils) (hasSk : Bool)
    (test_name : String) (fs : FS)
    (ps : List ((String × FPath) × (String × FPath))) :
    (crossCompareGo cv hasSk test_name fs ps).1.length = ps.length := by
  induction ps generalizing fs with
  | nil => rfl
  | cons pr rest ih =>
    simp [crossCompareGo, ih]

/-- Each pair-loop entry is keyed `browser1 + "_vs_" + browser2`. -/
theorem crossPairCompare_key (cv : ComputerVisionUtils) (hasSk : Bool)
    (test_name : String) (fs : FS) (pr : (String × FPath) × (String × FPath)) :
    (crossPairCompare cv hasSk test_name fs pr).1.1 = pr.1.1 ++ "_vs_" ++ pr.2.1 := by
  unfold crossPairCompare
  dsimp only
  split
  · split <;> rfl
  · rfl

/-- The emitted keys are exactly the visited pair keys, in order. -/
theorem crossCompareGo_keys (cv : ComputerVisionUtils) (hasSk : Bool)
    (test_name : String) (fs : FS)
    (ps : List ((String × FPath) × (String × FPath))) :
    (crossCompareGo cv hasSk test_name fs ps).1.map Prod.fst
      = ps.map (fun pr => pr.1.1 ++ "_vs_" ++ pr.2.1) := by
  induction ps generalizing fs with
  | nil => rfl
  | cons pr rest ih =>
    simp [crossCompareGo, ih, crossPairCompare_key]

/-- C6: the cross-browser matrix built by
`_compare_cross_browser_screenshots` has exactly n·(n-1)/2 entries for the n
successfully captured browsers, is empty when n ≤ 1, its keys are exactly the
upper-triangular pair keys in loop order, and every entry corresponds to a
pair of browsers whose captures both have status success. -/
theorem C6_cross_browser_matrix (cv : ComputerVisionUtils) (hasSk : Bool)
    (browser_results : List (String × BrowserCapture)) (test_name : String)
    (fs : FS) :
    (compare_cross_browser_screenshots cv hasSk browser_results test_name fs).1.length
        = (successShots browser_results).length
            * ((successShots browser_results).length - 1) / 2
    ∧ ((successShots browser_results).length ≤ 1 →
        (compare_cross_browser_screenshots cv hasSk browser_results test_name fs).1 = [])
    ∧ (compare_cross_browser_screenshots cv hasSk browser_results test_name fs).1.map Prod.fst
        = (upperPairs (successShots browser_results)).map
            (fun pr => pr.1.1 ++ "_vs_" ++ pr.2.1)
    ∧ ∀ e ∈ (compare_cross_browser_screenshots cv hasSk browser_results test_name fs).1,
        ∃ b1 s1 b2 s2,
          ((b1, s1), (b2, s2)) ∈ upperPairs (successShots browser_results)
          ∧ e.1 = b1 ++ "_vs_" ++ b2
          ∧ (∃ c1, (b1, c1) ∈ browser_results ∧ c1.status = "success"
              ∧ c1.screenshot = some s1)
          ∧ (∃ c2, (b2, c2) ∈ browser_results ∧ c2.status = "success"
              ∧ c2.screenshot = some s2) := by
  have hlen : (compare_cross_browser_screenshots cv hasSk browser_results test_name fs).1.length
      = (successShots browser_results).length.choose 2 := by
    unfold compare_cross_browser_screenshots
    rw [crossCompareGo_length, upperPairs_length]
  refine ⟨?_, ?_, ?_, ?_⟩
  · rw [hlen, Nat.choose_two_right]
  · intro hn
    have : (successShots browser_results).length.choose 2 = 0 := by
      interval_cases h : (successShots browser_results).length <;> rfl
    have h0 : (compare_cross_browser_screenshots cv hasSk browser_results test_name fs).1.length = 0 := by
      rw [hlen, this]
    exact List.length_eq_zero.mp h0
  · unfold compare_cross_browser_screenshots
    exact crossCompareGo_keys ..
  · intro e he
    have hkeys := crossCompareGo_keys cv hasSk test_name fs
      (upperPairs (successShots browser_results))
    have hkeymem : e.1 ∈ (compare_cross_browser_screenshots cv hasSk browser_results
        test_name fs).1.map Prod.fst := List.mem_map.mpr ⟨e, he, rfl⟩
    rw [show (compare_cross_browser_screenshots cv hasSk browser_results test_name fs).1.map Prod.fst
        = (upperPairs (successShots browser_results)).map
            (fun pr => pr.1.1 ++ "_vs_" ++ pr.2.1) from hkeys] at hkeymem
    obtain ⟨⟨⟨b1, s1⟩, ⟨b2, s2⟩⟩, hpr, hkey⟩ := List.mem_map.mp hkeymem
    obtain ⟨hm1, hm2⟩ := upperPairs_mem hpr
    obtain ⟨c1, hc1, hs1, hshot1⟩ := successShots_mem hm1
    obtain ⟨c2, hc2, hs2, hshot2⟩ := successShots_mem hm2
    exact ⟨b1, s1, b2, s2, hpr, hkey.symm, ⟨c1, hc1, hs1, hshot1⟩, ⟨c2, hc2, hs2, hshot2⟩⟩

/-- The concrete cross-browser result set for the C6 witness: two successful
captures and one failed one. -/
def rsC6 : List (String × BrowserCapture) :=
  [("chromium", { status := "success", screenshot := some ⟨ScreenDir.current, "t_chromium", ".png"⟩ }),
   ("firefox", { status := "error", error := some "launch failed" }),
   ("webkit", { status := "success", screenshot := some ⟨ScreenDir.current, "t_webkit", ".png"⟩ })]

/-- Witness for C6: with two successful captures of three browsers the matrix
has exactly one entry, keyed by the two successful browsers. -/
theorem C6_witness :
    (successShots rsC6).length = 2
    ∧ ((compare_cross_browser_screenshots CVUtilsDefault false rsC6 "t" (fun _ => none)).1.length
          = (successShots rsC6).length * ((successShots rsC6).length - 1) / 2
      ∧ ((successShots rsC6).length ≤ 1 →
          (compare_cross_browser_screenshots CVUtilsDefault false rsC6 "t" (fun _ => none)).1 = [])
      ∧ (compare_cross_browser_screenshots CVUtilsDefault false rsC6 "t" (fun _ => none)).1.map Prod.fst
          = (upperPairs (successShots rsC6)).map (fun pr => pr.1.1 ++ "_vs_" ++ pr.2.1)
      ∧ ∀ e ∈ (compare_cross_browser_screenshots CVUtilsDefault false rsC6 "t" (fun _ => none)).1,
          ∃ b1 s1 b2 s2,
            ((b1, s1), (b2, s2)) ∈ upperPairs (successShots rsC6)
            ∧ e.1 = b1 ++ "_vs_" ++ b2
            ∧ (∃ c1, (b1, c1) ∈ rsC6 ∧ c1.status = "success" ∧ c1.screenshot = some s1)
            ∧ (∃ c2, (b2, c2) ∈ rsC6 ∧ c2.status = "success" ∧ c2.screenshot = some s2)) :=
  ⟨rfl, C6_cross_browser_matrix CVUtilsDefault false rsC6 "t" (fun _ => none)⟩

/-! ### C1: baseline lifecycle -/

/-- When a baseline file is present, `_compare_with_baseline` takes the
comparison branch: the result carries no first-run marker and the baseline
file itself is never written (only diff artifacts are). -/
theorem compare_with_baseline_second (vt : VisualTester) (fs : FS)
    (test_name : String) (cur : FPath)
    (hb : (fs (baselinePath test_name)).isSome) :
    ∃ r2 fs2, compare_with_baseline vt fs test_name cur = some (r2, fs2)
      ∧ r2.first_run = none
      ∧ fs2 (baselinePath test_name) = fs (baselinePath test_name) := by
  rcases hfs : fs (baselinePath test_name) with _ | d
  · rw [hfs] at hb
    simp at hb
  · have hcmp := compare_screenshots_preserves vt.cv_utils vt.hasSkimage fs
      (baselinePath test_name) cur (baselinePath test_name)
      (ne_diffImagePath (baselinePath test_name))
    unfold compare_with_baseline
    dsimp only
    rw [hfs]
    rcases herr : (compare_screenshots vt.cv_utils vt.hasSkimage fs
        (baselinePath test_name) cur).1.error with _ | e
    · simp only [herr]
      rcases hdf : (compare_screenshots vt.cv_utils vt.hasSkimage fs
          (baselinePath test_name) cur).1.differences_found.getD false with _ | _
      · simp only [hdf, Bool.false_eq_true, if_false]
        exact ⟨_, _, rfl, rfl, by rw [hcmp, hfs]⟩
      · simp only [hdf, if_true]
        refine ⟨_, _, rfl, rfl, ?_⟩
        rw [create_diff_visualization_preserves _ _ _ _ _
          (by intro h; exact absurd h (by simp [baselinePath]))]
        rw [hcmp, hfs]
    · simp only [herr]
      exact ⟨_, _, rfl, rfl, by rw [hcmp, hfs]⟩

/-- C1: with no baseline file at the derived path, `compare(testId, capture)`
copies the capture verbatim into the baseline slot and returns
passed=true, similarity=1.0 with the `first_run` marker; a second call with
the baseline now present takes the comparison branch (no marker) and leaves
the baseline file's contents unchanged. -/
theorem C1_baseline_lifecycle (vt : VisualTester) (fs : FS) (test_name : String)
    (cur : FPath) (d : FileData)
    (hb : fs (baselinePath test_name) = none) (hc : fs cur = some d) :
    ∃ r1 fs1, compare_with_baseline vt fs test_name cur = some (r1, fs1)
      ∧ r1.passed = true ∧ r1.similarity = some 1 ∧ r1.first_run = some true
      ∧ r1.message = some "Baseline screenshot created"
      ∧ fs1 (baselinePath test_name) = some d
      ∧ ∃ r2 fs2, compare_with_baseline vt fs1 test_name cur = some (r2, fs2)
          ∧ r2.first_run = none ∧ fs2 (baselinePath test_name) = some d := by
  have hfirst : compare_with_baseline vt fs test_name cur
      = some ({ passed := true, similarity := some 1,
                baseline_path := baselinePath test_name, first_run := some true,
                message := some "Baseline screenshot created" },
              fsWrite fs (baselinePath test_name) d) := by
    unfold compare_with_baseline
    dsimp only
    rw [hb, hc]
    rfl
  have hwrote : (fsWrite fs (baselinePath test_name) d) (baselinePath test_name) = some d := by
    simp [fsWrite]
  obtain ⟨r2, fs2, he2, hfr2, hpres2⟩ :=
    compare_with_baseline_second vt (fsWrite fs (baselinePath test_name) d) test_name cur
      (by rw [hwrote]; rfl)
  exact ⟨_, _, hfirst, rfl, rfl, rfl, rfl, hwrote,
    r2, fs2, he2, hfr2, by rw [hpres2, hwrote]⟩

/-- Filesystem for the C1 witness: only a current capture exists. -/
def fsC1 : FS := fun p =>
  match p.dir with
  | ScreenDir.current => some (FileData.img blackPix1)
  | _ => none

/-- Path of the C1 witness current capture. -/
def curC1 : FPath := ⟨ScreenDir.current, "t", ".png"⟩

/-- Witness for C1 at a concrete first and second run. -/
theorem C1_witness :
    fsC1 (baselinePath "t") = none
    ∧ fsC1 curC1 = some (FileData.img blackPix1)
    ∧ (∃ r1 fs1, compare_with_baseline ⟨CVUtilsDefault, false⟩ fsC1 "t" curC1 = some (r1, fs1)
        ∧ r1.passed = true ∧ r1.similarity = some 1 ∧ r1.first_run = some true
        ∧ r1.message = some "Baseline screenshot created"
        ∧ fs1 (baselinePath "t") = some (FileData.img blackPix1)
        ∧ ∃ r2 fs2, compare_with_baseline ⟨CVUtilsDefault, false⟩ fs1 "t" curC1 = some (r2, fs2)
            ∧ r2.first_run = none ∧ fs2 (baselinePath "t") = some (FileData.img blackPix1)) :=
  ⟨rfl, rfl,
    C1_baseline_lifecycle ⟨CVUtilsDefault, false⟩ fsC1 "t" curC1 (FileData.img blackPix1) rfl rfl⟩

/-! ### C2: decode-failure surfacing -/

/-- C2 (amended): when either input of the baseline comparison fails to
decode, the comparator's result has passed=false, a populated error field and
no similarity value — never a pass; the `_run_single_visual_test` record
assembled from it, however, reports status "failed" with similarity
defaulted to 0 and drops the error field. -/
theorem C2_decode_error (vt : VisualTester) (fs : FS) (test_name url : String)
    (cur : FPath) (hb : (fs (baselinePath test_name)).isSome)
    (hdec : imread fs (baselinePath test_name) = none ∨ imread fs cur = none) :
    ∃ r fs2, compare_with_baseline vt fs test_name cur = some (r, fs2)
      ∧ r.passed = false ∧ r.error = some "Could not load images" ∧ r.similarity = none
      ∧ (run_single_result test_name url cur r).status = "failed"
      ∧ (run_single_result test_name url cur r).similarity = 0
      ∧ (run_single_result test_name url cur r).error = none := by
  have herr : (compare_screenshots vt.cv_utils vt.hasSkimage fs (baselinePath test_name) cur).1
      = { error := some "Could not load images" } := by
    unfold compare_screenshots
    rcases hdec with h | h
    · rw [h]
    · rcases h1 : imread fs (baselinePath test_name) with _ | i1
      · rfl
      · rw [h]
  rcases hfs : fs (baselinePath test_name) with _ | dd
  · rw [hfs] at hb
    simp at hb
  · unfold compare_with_baseline
    dsimp only
    rw [hfs]
    rw [show (compare_screenshots vt.cv_utils vt.hasSkimage fs (baselinePath test_name) cur).1.error
        = some "Could not load images" from by rw [herr]]
    exact ⟨_, _, rfl, rfl, rfl, rfl, rfl, rfl, rfl⟩

/-- Filesystem for C2: the baseline file decodes, the current file exists but
is not decodable. -/
def fsC2 : FS := fun p =>
  match p.dir with
  | ScreenDir.baselines => some (FileData.img whitePix1)
  | ScreenDir.current => some FileData.corrupt
  | ScreenDir.diffs => none

/-- Path of the C2 current capture. -/
def curC2 : FPath := ⟨ScreenDir.current, "t", ".png"⟩

/-- The `VisualTester` used for C2. -/
def vtC2 : VisualTester := ⟨CVUtilsDefault, false⟩

/-- C2 counterexample: a comparison whose current capture fails to decode is
reported by the single-test record with similarity 0, status "failed" and no
error field, contradicting the claim that a decode failure is never reported
with similarity treated as 0 and always surfaces a populated error field in
what is reported. -/
theorem C2_counterexample :
    imread fsC2 curC2 = none
    ∧ (fsC2 (baselinePath "t")).isSome = true
    ∧ (compare_with_baseline vtC2 fsC2 "t" curC2).map
        (fun rf => (run_single_result "t" "u" curC2 rf.1).similarity) = some 0
    ∧ (compare_with_baseline vtC2 fsC2 "t" curC2).map
        (fun rf => (run_single_result "t" "u" curC2 rf.1).status) = some "failed"
    ∧ (compare_with_baseline vtC2 fsC2 "t" curC2).map
        (fun rf => (run_single_result "t" "u" curC2 rf.1).error) = some none
    ∧ (compare_with_baseline vtC2 fsC2 "t" curC2).map (fun rf => rf.1.error)
        = some (some "Could not load images") :=
  ⟨rfl, rfl, rfl, rfl, rfl, rfl⟩

/-- Witness for the amended C2 at the same concrete input. -/
theorem C2_witness :
    (fsC2 (baselinePath "t")).isSome = true
    ∧ imread fsC2 curC2 = none
    ∧ (∃ r fs2, compare_with_baseline vtC2 fsC2 "t" curC2 = some (r, fs2)
        ∧ r.passed = false ∧ r.error = some "Could not load images" ∧ r.similarity = none
        ∧ (run_single_result "t" "u" curC2 r).status = "failed"
        ∧ (run_single_result "t" "u" curC2 r).similarity = 0
        ∧ (run_single_result "t" "u" curC2 r).error = none) :=
  ⟨rfl, rfl, C2_decode_error vtC2 fsC2 "t" "u" curC2 rfl (Or.inr rfl)⟩

/-! ### SSIM and fallback algebra helpers -/

/-- Sum of squares over a list of rationals is nonnegative. -/
theorem list_sum_sq_nonneg (l : List ℚ) : 0 ≤ (l.map (fun x => x * x)).sum := by
  induction l with
  | nil => simp
  | cons x xs ih => simpa using add_nonneg (mul_self_nonneg x) ih

/-- Cauchy–Schwarz for lists: the squared sum is at most the length times the
sum of squares. -/
theorem list_sq_sum_le (l : List ℚ) :
    l.sum ^ 2 ≤ (l.length : ℚ) * (l.map (fun x => x * x)).sum := by
  induction l with
  | nil => simp
  | cons x xs ih =>
    have hq := list_sum_sq_nonneg xs
    simp only [List.sum_cons, List.map_cons, List.length_cons]
    push_cast
    rcases Nat.eq_zero_or_pos xs.length with h0 | hpos
    · have hxs : xs = [] := List.eq_nil_of_length_eq_zero h0
      subst hxs
      simp
      nlinarith [sq_nonneg x]
    · have hn1 : (1 : ℚ) ≤ (xs.length : ℚ) := by exact_mod_cast hpos
      nlinarith [sq_nonneg (x * (xs.length : ℚ) - xs.sum), ih, hq, hn1]

/-- Zipping a list with itself under a binary function is a map. -/
theorem list_zipWith_self {α β : Type} (f : α → α → β) (l : List α) :
    List.zipWith f l l = l.map (fun a => f a a) := by
  induction l with
  | nil => rfl
  | cons x xs ih => simp [ih]

/-- A list of ones sums to its length. -/
theorem list_sum_of_all_one (l : List ℚ) (h : ∀ x ∈ l, x = 1) :
    l.sum = (l.length : ℚ) := by
  induction l with
  | nil => simp
  | cons x xs ih =>
    have hx := h x (by simp)
    have ht := ih (fun y hy => h y (by simp [hy]))
    simp only [List.sum_cons, List.length_cons, hx, ht]
    push_cast
    ring

/-- Summing a constant over a list. -/
theorem list_sum_map_const {α : Type} (l : List α) (c : ℕ) :
    (l.map (fun _ => c)).sum = l.length * c := by
  induction l with
  | nil => simp
  | cons x xs ih =>
    simp only [List.map_cons, List.sum_cons, List.length_cons, ih]
    ring

/-- The SSIM ratio with identical statistics in both inputs equals 1. -/
theorem ssim_self_formula (u v : ℚ) (hv : 0 ≤ v) :
    ((2 * u * u + ssimC1) * (2 * v + ssimC2)) /
      ((u * u + u * u + ssimC1) * (v + v + ssimC2)) = 1 := by
  have hc1 : (0 : ℚ) < ssimC1 := by norm_num [ssimC1]
  have hc2 : (0 : ℚ) < ssimC2 := by norm_num [ssimC2]
  have h1 : u * u + u * u + ssimC1 = 2 * u * u + ssimC1 := by ring
  have h2 : v + v + ssimC2 = 2 * v + ssimC2 := by ring
  rw [h1, h2, div_self]
  exact ne_of_gt (mul_pos (by nlinarith [mul_self_nonneg u]) (by nlinarith))

/-- SSIM of a window against itself is exactly 1 (two or more samples keep
the sample covariance nonnegative). -/
theorem ssimGlobal_self (xs : List ℚ) (hn : 2 ≤ xs.length) :
    ssimGlobal xs xs = 1 := by
  unfold ssimGlobal
  dsimp only
  rw [list_zipWith_self]
  have hn2 : (2 : ℚ) ≤ (xs.length : ℚ) := by exact_mod_cast hn
  have hnpos : (0 : ℚ) < (xs.length : ℚ) := by linarith
  have hn1 : (0 : ℚ) < (xs.length : ℚ) - 1 := by linarith
  have hvar : xs.sum / (xs.length : ℚ) * (xs.sum / (xs.length : ℚ))
      ≤ (xs.map (fun a => a * a)).sum / (xs.length : ℚ) := by
    rw [div_mul_div_comm, div_le_div_iff₀ (by positivity) hnpos]
    have hcs := list_sq_sum_le xs
    nlinarith [list_sum_sq_nonneg xs]
  exact ssim_self_formula _ _
    (mul_nonneg (le_of_lt (div_pos hnpos hn1)) (sub_nonneg.mpr hvar))

/-- Each SSIM window has exactly 49 samples. -/
theorem ssimWindow_length (g : GrayImage) (i j : ℕ) :
    (ssimWindow g i j).length = 49 := rfl

/-- The cropped SSIM map has (h-6)·(w-6) entries. -/
theorem ssimValues_length (g1 g2 : GrayImage) (h w : ℕ) :
    (ssimValues g1 g2 h w).length = (h - 6) * (w - 6) := by
  unfold ssimValues
  rw [List.length_flatMap]
  simp only [Function.comp_def, List.length_map, List.length_range]
  rw [list_sum_map_const, List.length_range]

/-- All cropped SSIM values of an image against itself are 1. -/
theorem ssimValues_self (g : GrayImage) (h w : ℕ) :
    ∀ v ∈ ssimValues g g h w, v = 1 := by
  intro v hv
  unfold ssimValues at hv
  rw [List.mem_flatMap] at hv
  obtain ⟨i, hi, hv⟩ := hv
  rw [List.mem_map] at hv
  obtain ⟨j, hj, rfl⟩ := hv
  refine ssimGlobal_self _ ?_
  rw [ssimWindow_length]
  norm_num

/-- Grayscale conversion preserves the number of rows. -/
theorem cvtGray_length (img : Image) : (cvtGray img).length = img.length := by
  simp [cvtGray]

/-- Grayscale conversion maps the first row. -/
theorem cvtGray_headD (img : Image) :
    (cvtGray img).headD [] = (img.headD []).map bgr2grayPix := by
  cases img <;> rfl

/-- skimage SSIM of a large-enough grayscale image with itself is exactly 1. -/
theorem ssimImage_self (g : GrayImage) (h7 : 7 ≤ g.length)
    (w7 : 7 ≤ (g.headD []).length) : ssimImage g g = Except.ok 1 := by
  unfold ssimImage
  rw [if_neg (by omega)]
  dsimp only
  rw [list_sum_of_all_one _ (ssimValues_self g _ _), div_self]
  rw [ssimValues_length]
  have hpos : 0 < (g.length - 6) * ((g.headD []).length - 6) :=
    Nat.mul_pos (by omega) (by omega)
  exact_mod_cast Nat.pos_iff_ne_zero.mp hpos

/-- Per-channel absolute difference of a pixel with itself is zero. -/
theorem absDiffPix_self (p : Pixel) : absDiffPix p p = (0, 0, 0) := by
  unfold absDiffPix
  simp

/-- A pixel row diffed against itself, converted and thresholded, is zero. -/
theorem row_mask_self (row : List Pixel) :
    ((row.map (fun p => absDiffPix p p)).map bgr2grayPix).map
        (fun v => if 30 < v then 255 else 0)
      = row.map (fun _ => 0) := by
  induction row with
  | nil => rfl
  | cons p ps ih =>
    simp only [List.map_cons, ih, absDiffPix_self]
    norm_num [bgr2grayPix]

/-- The diff mask of an image against itself is all-zero. -/
theorem create_diff_mask_self (img : Image) :
    create_diff_mask img img = img.map (fun row => row.map (fun _ => 0)) := by
  unfold create_diff_mask absdiff threshBin30 cvtGray
  rw [list_zipWith_self]
  rw [List.map_map, List.map_map]
  apply List.map_congr_left
  intro row _
  simpa using row_mask_self row

/-- The mask sum over an image compared against itself is zero. -/
theorem maskSum_self (img : Image) : maskSum (create_diff_mask img img) = 0 := by
  rw [create_diff_mask_self]
  unfold maskSum
  rw [List.map_map]
  rw [List.sum_eq_zero_iff]
  intro x hx
  obtain ⟨row, hrow, rfl⟩ := List.mem_map.mp hx
  simp [list_sum_map_const]

/-- absdiff of an image with itself counts zero nonzero channels. -/
theorem count_nonzero_absdiff_self (img : Image) :
    count_nonzero (absdiff img img) = 0 := by
  unfold count_nonzero absdiff
  rw [list_zipWith_self]
  rw [List.map_map]
  rw [List.sum_eq_zero_iff]
  intro x hx
  obtain ⟨row, hrow, rfl⟩ := List.mem_map.mp hx
  simp only [Function.comp_apply]
  rw [list_zipWith_self, List.map_map]
  rw [List.sum_eq_zero_iff]
  intro y hy
  obtain ⟨p, hp, rfl⟩ := List.mem_map.mp hy
  simp [Function.comp, absDiffPix_self, countNonzeroPix]

/-- The fallback metric on an image against itself is exactly 1. -/
theorem fallbackSimilarity_self (img : Image) : fallbackSimilarity img img = 1 := by
  unfold fallbackSimilarity
  rw [count_nonzero_absdiff_self]
  simp

/-! ### C8: self-comparison -/

/-- C8 (amended): comparing a decoded image against itself yields similarity
exactly 1.0 and differences_found = false — under the pixel-count fallback for
every image, and under the structural-similarity metric for every image of at
least 7×7 pixels (below that skimage raises and no similarity is produced). -/
theorem C8_self_similarity (cv : ComputerVisionUtils) (hasSk : Bool) (fs : FS)
    (p : FPath) (img : Image) (h : imread fs p = some img)
    (hdim : hasSk = true → 7 ≤ imgHeight img ∧ 7 ≤ imgWidth img) :
    (compare_screenshots cv hasSk fs p p).1.similarity = some 1
    ∧ (compare_screenshots cv hasSk fs p p).1.differences_found = some false := by
  have hres : resizeIfNeeded img img = img := by
    unfold resizeIfNeeded
    simp
  have hcalc : calculate_similarity hasSk img img = Except.ok 1 := by
    unfold calculate_similarity
    cases hasSk with
    | false => simp [fallbackSimilarity_self]
    | true =>
      obtain ⟨h7, w7⟩ := hdim rfl
      simp only [if_true]
      exact ssimImage_self _ (by rw [cvtGray_length]; exact h7)
        (by rw [cvtGray_headD, List.length_map]; exact w7)
  simp only [compare_screenshots, h, hres, hcalc]
  constructor
  · simp
  · simp [maskSum_self]

/-- Filesystem for the C8 counterexample and witness: a 3×3 capture in the
current slot and a 7×7 capture in the baseline slot. -/
def fsC8 : FS := fun p =>
  match p.dir with
  | ScreenDir.current => some (FileData.img (whiteSquare 3))
  | ScreenDir.baselines => some (FileData.img (whiteSquare 7))
  | ScreenDir.diffs => none

/-- Path of the C8 3×3 capture. -/
def pC8 : FPath := ⟨ScreenDir.current, "t", ".png"⟩

/-- Path of the C8 7×7 capture. -/
def pC8w : FPath := ⟨ScreenDir.baselines, "t", ".png"⟩

/-- C8 counterexample: under the structural-similarity metric, a decoded 3×3
image compared against itself yields no similarity at all — skimage refuses
images below its 7×7 window and the comparison returns an error dictionary —
rather than similarity 1.0 with differences_found false. -/
theorem C8_counterexample :
    imread fsC8 pC8 = some (whiteSquare 3)
    ∧ (compare_screenshots CVUtilsDefault true fsC8 pC8 pC8).1.similarity = none
    ∧ (compare_screenshots CVUtilsDefault true fsC8 pC8 pC8).1.differences_found = none
    ∧ (compare_screenshots CVUtilsDefault true fsC8 pC8 pC8).1.error
        = some "win_size exceeds image extent" :=
  ⟨rfl, rfl, rfl, rfl⟩

/-- Witness for the amended C8: a 7×7 image against itself under the
structural-similarity metric. -/
theorem C8_witness :
    imread fsC8 pC8w = some (whiteSquare 7)
    ∧ 7 ≤ imgHeight (whiteSquare 7) ∧ 7 ≤ imgWidth (whiteSquare 7)
    ∧ ((compare_screenshots CVUtilsDefault true fsC8 pC8w pC8w).1.similarity = some 1
      ∧ (compare_screenshots CVUtilsDefault true fsC8 pC8w pC8w).1.differences_found
          = some false) :=
  ⟨rfl, by decide, by decide,
    C8_self_similarity CVUtilsDefault true fsC8 pC8w (whiteSquare 7) rfl
      (fun _ => ⟨by decide, by decide⟩)⟩

/-! ### C4: similarity range -/

/-- A pixel contributes at most 3 nonzero channel entries. -/
theorem countNonzeroPix_le (p : Pixel) : countNonzeroPix p ≤ 3 := by
  unfold countNonzeroPix
  have h1 : (if p.1 ≠ 0 then 1 else 0) ≤ 1 := by split <;> omega
  have h2 : (if p.2.1 ≠ 0 then 1 else 0) ≤ 1 := by split <;> omega
  have h3 : (if p.2.2 ≠ 0 then 1 else 0) ≤ 1 := by split <;> omega
  omega

/-- A row of pixels contributes at most three nonzero entries per pixel. -/
theorem row_count_le (row : List Pixel) :
    (row.map countNonzeroPix).sum ≤ 3 * row.length := by
  induction row with
  | nil => simp
  | cons p ps ih =>
    simp only [List.map_cons, List.sum_cons, List.length_cons]
    have := countNonzeroPix_le p
    omega

/-- The nonzero-channel count of the absolute difference is bounded by the
first image's pixel count times 3 when its rows all have the stated width. -/
theorem count_nonzero_absdiff_le (W : ℕ) : ∀ (img1 img2 : Image),
    (∀ row ∈ img1, row.length = W) →
    count_nonzero (absdiff img1 img2) ≤ img1.length * W * 3 := by
  intro img1
  induction img1 with
  | nil =>
    intro img2 _
    simp [count_nonzero, absdiff]
  | cons r1 rest ih =>
    intro img2 hwf
    cases img2 with
    | nil => simp [count_nonzero, absdiff]
    | cons r2 rest2 =>
      have hhead : ((List.zipWith absDiffPix r1 r2).map countNonzeroPix).sum ≤ 3 * W := by
        refine le_trans (row_count_le _) ?_
        have h1 := hwf r1 (by simp)
        have h2 : (List.zipWith absDiffPix r1 r2).length ≤ W := by
          rw [List.length_zipWith]
          omega
        omega
      have htail := ih rest2 (fun row hr => hwf row (by simp [hr]))
      unfold count_nonzero absdiff at htail ⊢
      simp only [List.zipWith_cons_cons, List.map_cons, List.sum_cons, List.length_cons]
      calc ((List.zipWith absDiffPix r1 r2).map countNonzeroPix).sum
            + ((List.zipWith (List.zipWith absDiffPix) rest rest2).map
                (fun row => (row.map countNonzeroPix).sum)).sum
          ≤ 3 * W + rest.length * W * 3 := Nat.add_le_add hhead htail
        _ = (rest.length + 1) * W * 3 := by ring

/-- C4 (amended): for every pair of decoded images the pixel-count fallback
metric returns a similarity in [0.0, 1.0].  (The structural-similarity
metric does not obey the same lower bound: it is negative for anticorrelated
images, see the counterexample.) -/
theorem C4_fallback_range (img1 img2 : Image)
    (hh : 0 < imgHeight img1) (hw : 0 < imgWidth img1)
    (hwf : ∀ row ∈ img1, row.length = imgWidth img1) :
    0 ≤ fallbackSimilarity img1 img2 ∧ fallbackSimilarity img1 img2 ≤ 1 := by
  unfold fallbackSimilarity
  have hcount : count_nonzero (absdiff img1 img2)
      ≤ imgHeight img1 * imgWidth img1 * 3 :=
    count_nonzero_absdiff_le (imgWidth img1) img1 img2 hwf
  have htotpos : 0 < imgHeight img1 * imgWidth img1 * 3 := by positivity
  have htot : (0 : ℚ) < ((imgHeight img1 * imgWidth img1 * 3 : ℕ) : ℚ) := by
    exact_mod_cast htotpos
  have hc : ((count_nonzero (absdiff img1 img2) : ℕ) : ℚ)
      ≤ ((imgHeight img1 * imgWidth img1 * 3 : ℕ) : ℚ) := by exact_mod_cast hcount
  constructor
  · have hle1 : ((count_nonzero (absdiff img1 img2) : ℕ) : ℚ)
        / ((imgHeight img1 * imgWidth img1 * 3 : ℕ) : ℚ) ≤ 1 :=
      (div_le_one htot).mpr hc
    linarith
  · have h0 : (0 : ℚ) ≤ ((count_nonzero (absdiff img1 img2) : ℕ) : ℚ)
        / ((imgHeight img1 * imgWidth img1 * 3 : ℕ) : ℚ) := by positivity
    linarith

/-- Witness for the amended C4 at a concrete decoded pair. -/
theorem C4_witness :
    0 < imgHeight whitePix1 ∧ 0 < imgWidth whitePix1
    ∧ (∀ row ∈ whitePix1, row.length = imgWidth whitePix1)
    ∧ (0 ≤ fallbackSimilarity whitePix1 blackPix1
        ∧ fallbackSimilarity whitePix1 blackPix1 ≤ 1) :=
  ⟨by decide, by decide, by decide,
    C4_fallback_range whitePix1 blackPix1 (by decide) (by decide) (by decide)⟩

/-- The Nat-level samples of a 7×7 window, used to evaluate concrete SSIM
runs through kernel computation. -/
def natWindow (g : GrayImage) (i j : ℕ) : List ℕ :=
  (List.range 7).flatMap (fun a =>
    (List.range 7).map (fun b => (g.getD (i + a) []).getD (j + b) 0))

/-- The SSIM window is the rational cast of the Nat-level window. -/
theorem ssimWindow_eq_natWindow (g : GrayImage) (i j : ℕ) :
    ssimWindow g i j = (natWindow g i j).map (Nat.cast : ℕ → ℚ) := by
  unfold ssimWindow natWindow grayAt
  rw [List.map_flatMap]
  simp [List.map_map, Function.comp_def]

/-- Window sums commute with the cast. -/
theorem sum_cast_window (g : GrayImage) (i j : ℕ) :
    (ssimWindow g i j).sum = (Nat.cast ((natWindow g i j).sum) : ℚ) := by
  rw [ssimWindow_eq_natWindow, Nat.cast_list_sum]

/-- Window sums of squares commute with the cast. -/
theorem sumsq_cast_window (g : GrayImage) (i j : ℕ) :
    ((ssimWindow g i j).map (fun a => a * a)).sum
      = (Nat.cast (((natWindow g i j).map (fun n => n * n)).sum) : ℚ) := by
  rw [ssimWindow_eq_natWindow, List.map_map, Nat.cast_list_sum, List.map_map]
  have hfun : ((fun a : ℚ => a * a) ∘ (Nat.cast : ℕ → ℚ))
      = ((Nat.cast : ℕ → ℚ) ∘ fun n : ℕ => n * n) := by
    funext n
    simp only [Function.comp_apply]
    push_cast
    ring
  rw [hfun]

/-- Pointwise products of cast lists are casts of Nat products. -/
theorem zipWith_cast_mul : ∀ (l1 l2 : List ℕ),
    List.zipWith (fun a b => a * b)
        (l1.map (Nat.cast : ℕ → ℚ)) (l2.map (Nat.cast : ℕ → ℚ))
      = (List.zipWith (fun a b => a * b) l1 l2).map (Nat.cast : ℕ → ℚ)
  | [], _ => by simp
  | _ :: _, [] => by simp
  | a :: l1, b :: l2 => by
    simp only [List.map_cons, List.zipWith_cons_cons, zipWith_cast_mul l1 l2]
    norm_cast

/-- Window cross sums commute with the cast. -/
theorem zipsum_cast_window (g1 g2 : GrayImage) (i j : ℕ) :
    (List.zipWith (fun a b => a * b) (ssimWindow g1 i j) (ssimWindow g2 i j)).sum
      = (Nat.cast ((List.zipWith (fun a b => a * b)
          (natWindow g1 i j) (natWindow g2 i j)).sum) : ℚ) := by
  rw [ssimWindow_eq_natWindow g1, ssimWindow_eq_natWindow g2, zipWith_cast_mul,
    Nat.cast_list_sum]

/-- C4 counterexample: on a decoded 7×7 checkerboard pair the
structural-similarity metric of the source returns a negative similarity,
outside the claimed range [0.0, 1.0]. -/
theorem C4_counterexample :
    calculate_similarity true checkerA checkerB
        = Except.ok (-2995307191159 / 3008397718841)
    ∧ ((-2995307191159 / 3008397718841 : ℚ) < 0) := by
  refine ⟨?_, by norm_num⟩
  show ssimImage (cvtGray checkerA) (cvtGray checkerB) = _
  unfold ssimImage
  rw [if_neg (by decide)]
  dsimp only
  rw [show (cvtGray checkerA).length = 7 from by decide,
      show ((cvtGray checkerA).headD []).length = 7 from by decide]
  rw [ssimValues_length]
  unfold ssimValues
  rw [show (7 - 6 : ℕ) = 1 from rfl, show List.range 1 = [0] from rfl]
  simp only [List.flatMap_cons, List.flatMap_nil, List.map_cons, List.map_nil,
    List.append_nil, List.sum_cons, List.sum_nil]
  unfold ssimGlobal
  dsimp only
  rw [ssimWindow_length, sum_cast_window, sum_cast_window, sumsq_cast_window,
    sumsq_cast_window, zipsum_cast_window]
  rw [show (natWindow (cvtGray checkerA) 0 0).sum = 6120 from by decide,
      show (natWindow (cvtGray checkerB) 0 0).sum = 6375 from by decide,
      show ((natWindow (cvtGray checkerA) 0 0).map (fun n => n * n)).sum = 1560600 from by decide,
      show ((natWindow (cvtGray checkerB) 0 0).map (fun n => n * n)).sum = 1625625 from by decide,
      show (List.zipWith (fun a b => a * b) (natWindow (cvtGray checkerA) 0 0)
          (natWindow (cvtGray checkerB) 0 0)).sum = 0 from by decide]
  rw [Except.ok.injEq]
  norm_num [ssimC1, ssimC2]

/-! ### C9: dimension-mismatch handling -/

/-- The resize target height is met exactly. -/
theorem cvResize_length (img : Image) (w h : ℕ) : (cvResize img w h).length = h := by
  simp [cvResize]

/-- The resize target width is met exactly (for a positive height). -/
theorem cvResize_headD_length (img : Image) (w h : ℕ) (hh : 0 < h) :
    ((cvResize img w h).headD []).length = w := by
  unfold cvResize
  cases h with
  | zero => omega
  | succ k =>
    rw [List.range_succ_eq_map]
    simp

/-- C9 (amended): when the two decoded images have different dimensions, the
second is resized to the first's dimensions before similarity and mask
computation, and a similarity value is returned — always under the fallback
metric, and under the structural-similarity metric whenever the first image
is at least 7×7 (smaller images make skimage raise, producing an error
result instead of a similarity). -/
theorem C9_resize_on_mismatch (cv : ComputerVisionUtils) (hasSk : Bool)
    (fs : FS) (p1 p2 : FPath) (img1 img2 : Image)
    (h1 : imread fs p1 = some img1) (h2 : imread fs p2 = some img2)
    (hne : shape img1 ≠ shape img2)
    (hpos : 0 < imgHeight img1)
    (hdim : hasSk = true → 7 ≤ imgHeight img1 ∧ 7 ≤ imgWidth img1) :
    resizeIfNeeded img1 img2 = cvResize img2 (imgWidth img1) (imgHeight img1)
    ∧ shape (cvResize img2 (imgWidth img1) (imgHeight img1)) = shape img1
    ∧ ∃ s, calculate_similarity hasSk img1 (resizeIfNeeded img1 img2) = Except.ok s
        ∧ (compare_screenshots cv hasSk fs p1 p2).1.similarity = some s
        ∧ (compare_screenshots cv hasSk fs p1 p2).1.error = none := by
  have hr : resizeIfNeeded img1 img2 = cvResize img2 (imgWidth img1) (imgHeight img1) := by
    unfold resizeIfNeeded
    rw [if_pos hne]
  have hshape : shape (cvResize img2 (imgWidth img1) (imgHeight img1)) = shape img1 := by
    simp only [shape, Prod.mk.injEq]
    constructor
    · show (cvResize img2 (imgWidth img1) (imgHeight img1)).length = img1.length
      rw [cvResize_length]
      rfl
    · show ((cvResize img2 (imgWidth img1) (imgHeight img1)).headD []).length
          = (img1.headD []).length
      rw [cvResize_headD_length _ _ _ hpos]
      rfl
  have hcalc : ∃ s, calculate_similarity hasSk img1 (resizeIfNeeded img1 img2)
      = Except.ok s := by
    cases hasSk with
    | false => exact ⟨_, rfl⟩
    | true =>
      obtain ⟨h7, w7⟩ := hdim rfl
      have h7' : 7 ≤ img1.length := h7
      have w7' : 7 ≤ (img1.headD []).length := w7
      have hg1 : (cvtGray img1).length = img1.length := cvtGray_length img1
      have hg2 : ((cvtGray img1).headD []).length = (img1.headD []).length := by
        rw [cvtGray_headD, List.length_map]
      unfold calculate_similarity
      rw [if_pos rfl]
      unfold ssimImage
      rw [if_neg (by omega)]
      exact ⟨_, rfl⟩
  obtain ⟨s, hs⟩ := hcalc
  refine ⟨hr, hshape, s, hs, ?_, ?_⟩
  · simp [compare_screenshots, h1, h2, hs]
  · simp [compare_screenshots, h1, h2, hs]

/-- Filesystem for the C9 witness: a 7×7 baseline and an 8×8 current. -/
def fsC9w : FS := fun p =>
  match p.dir with
  | ScreenDir.baselines => some (FileData.img (whiteSquare 7))
  | ScreenDir.current => some (FileData.img (blackSquare 8))
  | ScreenDir.diffs => none

/-- Witness for the amended C9: a 7×7 against an 8×8 image under the
structural-similarity metric. -/
theorem C9_witness :
    imread fsC9w pBWa = some (whiteSquare 7)
    ∧ imread fsC9w pBWb = some (blackSquare 8)
    ∧ shape (whiteSquare 7) ≠ shape (blackSquare 8)
    ∧ 0 < imgHeight (whiteSquare 7)
    ∧ (resizeIfNeeded (whiteSquare 7) (blackSquare 8)
          = cvResize (blackSquare 8) (imgWidth (whiteSquare 7)) (imgHeight (whiteSquare 7))
      ∧ shape (cvResize (blackSquare 8) (imgWidth (whiteSquare 7)) (imgHeight (whiteSquare 7)))
          = shape (whiteSquare 7)
      ∧ ∃ s, calculate_similarity true (whiteSquare 7)
            (resizeIfNeeded (whiteSquare 7) (blackSquare 8)) = Except.ok s
          ∧ (compare_screenshots CVUtilsDefault true fsC9w pBWa pBWb).1.similarity = some s
          ∧ (compare_screenshots CVUtilsDefault true fsC9w pBWa pBWb).1.error = none) :=
  ⟨rfl, rfl, by decide, by decide,
    C9_resize_on_mismatch CVUtilsDefault true fsC9w pBWa pBWb (whiteSquare 7)
      (blackSquare 8) rfl rfl (by decide) (by decide) (fun _ => ⟨by decide, by decide⟩)⟩

/-- Filesystem for the C9 counterexample: a decodable 1×1 baseline and a
decodable 2×2 current capture. -/
def fsC9 : FS := fun p =>
  match p.dir with
  | ScreenDir.baselines => some (FileData.img whitePix1)
  | ScreenDir.current => some (FileData.img (blackSquare 2))
  | ScreenDir.diffs => none

/-- C9 counterexample: two successfully decoded images of different
dimensions for which the comparison does fail — the resized pair is smaller
than the SSIM window, skimage raises, and no similarity value is returned. -/
theorem C9_counterexample :
    imread fsC9 pBWa = some whitePix1
    ∧ imread fsC9 pBWb = some (blackSquare 2)
    ∧ shape whitePix1 ≠ shape (blackSquare 2)
    ∧ (compare_screenshots CVUtilsDefault true fsC9 pBWa pBWb).1.similarity = none
    ∧ (compare_screenshots CVUtilsDefault true fsC9 pBWa pBWb).1.error
        = some "win_size exceeds image extent" :=
  ⟨rfl, rfl, by decide, rfl, rfl⟩

/-! ### C10: unconditional diff-image write -/

/-- On every successful comparison, `compare_screenshots` has written a file
at the first input's derived diff path. -/
theorem compare_screenshots_writes (cv : ComputerVisionUtils) (hasSk : Bool)
    (fs : FS) (p1 p2 : FPath)
    (hok : (compare_screenshots cv hasSk fs p1 p2).1.error = none) :
    ((compare_screenshots cv hasSk fs p1 p2).2 (diffImagePath p1)).isSome := by
  rcases hi1 : imread fs p1 with _ | img1
  · simp only [compare_screenshots, hi1] at hok
    simp at hok
  · rcases hi2 : imread fs p2 with _ | img2
    · simp only [compare_screenshots, hi1, hi2] at hok
      simp at hok
    · simp only [compare_screenshots, hi1, hi2] at hok ⊢
      rcases hcalc : calculate_similarity hasSk img1 (resizeIfNeeded img1 img2) with e | s
      · rw [hcalc] at hok
        simp at hok
      · simp only [hcalc]
        simp [fsWrite]

/-- When the baseline comparison succeeds, the filesystem after
`_compare_with_baseline` holds a file at the baseline-derived diff path. -/
theorem compare_with_baseline_diff_written (vt : VisualTester) (fs : FS)
    (test_name : String) (cur : FPath) (r : BaselineResult) (fs2 : FS)
    (hcb : compare_with_baseline vt fs test_name cur = some (r, fs2))
    (hbase : (fs (baselinePath test_name)).isSome)
    (herr : (compare_screenshots vt.cv_utils vt.hasSkimage fs
        (baselinePath test_name) cur).1.error = none) :
    (fs2 (diffImagePath (baselinePath test_name))).isSome := by
  rcases hfs : fs (baselinePath test_name) with _ | dd
  · rw [hfs] at hbase
    simp at hbase
  · unfold compare_with_baseline at hcb
    dsimp only at hcb
    rw [hfs] at hcb
    simp only [Option.isNone_some, Bool.false_eq_true, if_false, herr] at hcb
    have hwrite := compare_screenshots_writes vt.cv_utils vt.hasSkimage fs
      (baselinePath test_name) cur herr
    rcases hdf : (compare_screenshots vt.cv_utils vt.hasSkimage fs
        (baselinePath test_name) cur).1.differences_found.getD false with _ | _
    · rw [hdf] at hcb
      simp only [Bool.false_eq_true, if_false] at hcb
      have hfs2 : fs2 = (compare_screenshots vt.cv_utils vt.hasSkimage fs
          (baselinePath test_name) cur).2 := by
        have := congrArg (fun o => Option.map Prod.snd o) hcb
        simpa using this.symm
      rw [hfs2]
      exact hwrite
    · rw [hdf] at hcb
      simp only [if_true] at hcb
      have hfs2 : fs2 = (create_diff_visualization
          (compare_screenshots vt.cv_utils vt.hasSkimage fs (baselinePath test_name) cur).2
          (baselinePath test_name) cur test_name).2 := by
        have := congrArg (fun o => Option.map Prod.snd o) hcb
        simpa using this.symm
      rw [hfs2]
      rw [create_diff_visualization_preserves _ _ _ _ _
        (by intro h; exact absurd h (by simp [diffImagePath, baselinePath]))]
      exact hwrite

/-- C10 (amended): whenever both inputs decode and the similarity computation
succeeds (always under the fallback metric; under SSIM when the first image
is at least 7×7), `compare_screenshots` writes a highlighted diff image at
the path derived from the first input (same directory, stem suffixed
"_diff"), regardless of whether differences were found; in particular a
baseline comparison deposits a diff artifact into the baseline directory even
for identical images. -/
theorem C10_diff_always_written (cv : ComputerVisionUtils) (hasSk : Bool)
    (fs : FS) (p1 p2 : FPath) (img1 img2 : Image)
    (h1 : imread fs p1 = some img1) (h2 : imread fs p2 = some img2)
    (hok : (compare_screenshots cv hasSk fs p1 p2).1.error = none) :
    (compare_screenshots cv hasSk fs p1 p2).1.diff_image = some (diffImagePath p1)
    ∧ (compare_screenshots cv hasSk fs p1 p2).2 (diffImagePath p1)
        = some (FileData.img (highlightDiff (resizeIfNeeded img1 img2)
            (create_diff_mask img1 (resizeIfNeeded img1 img2))))
    ∧ ∀ (vt : VisualTester) (fs' : FS) (test_name : String) (cur : FPath)
        (r : BaselineResult) (fs2 : FS),
        compare_with_baseline vt fs' test_name cur = some (r, fs2) →
        (fs' (baselinePath test_name)).isSome →
        (compare_screenshots vt.cv_utils vt.hasSkimage fs'
            (baselinePath test_name) cur).1.error = none →
        ((diffImagePath (baselinePath test_name)).dir = ScreenDir.baselines
          ∧ (fs2 (diffImagePath (baselinePath test_name))).isSome) := by
  refine ⟨?_, ?_, ?_⟩
  · simp only [compare_screenshots, h1, h2] at hok ⊢
    rcases hcalc : calculate_similarity hasSk img1 (resizeIfNeeded img1 img2) with e | s
    · rw [hcalc] at hok
      simp at hok
    · simp [hcalc]
  · simp only [compare_screenshots, h1, h2] at hok ⊢
    rcases hcalc : calculate_similarity hasSk img1 (resizeIfNeeded img1 img2) with e | s
    · rw [hcalc] at hok
      simp at hok
    · simp only [hcalc]
      simp [fsWrite]
  · intro vt fs' test_name cur r fs2 hcb hbase herr
    exact ⟨rfl, compare_with_baseline_diff_written vt fs' test_name cur r fs2 hcb hbase herr⟩

/-- Witness for the amended C10 at a concrete decoded pair (fallback metric,
1×1 images, no differences-independent condition violated). -/
theorem C10_witness :
    imread fsBW pBWa = some whitePix1
    ∧ imread fsBW pBWb = some blackPix1
    ∧ (compare_screenshots CVUtilsDefault false fsBW pBWa pBWb).1.error = none
    ∧ ((compare_screenshots CVUtilsDefault false fsBW pBWa pBWb).1.diff_image
          = some (diffImagePath pBWa)
      ∧ (compare_screenshots CVUtilsDefault false fsBW pBWa pBWb).2 (diffImagePath pBWa)
          = some (FileData.img (highlightDiff (resizeIfNeeded whitePix1 blackPix1)
              (create_diff_mask whitePix1 (resizeIfNeeded whitePix1 blackPix1))))
      ∧ ∀ (vt : VisualTester) (fs' : FS) (test_name : String) (cur : FPath)
          (r : BaselineResult) (fs2 : FS),
          compare_with_baseline vt fs' test_name cur = some (r, fs2) →
          (fs' (baselinePath test_name)).isSome →
          (compare_screenshots vt.cv_utils vt.hasSkimage fs'
              (baselinePath test_name) cur).1.error = none →
          ((diffImagePath (baselinePath test_name)).dir = ScreenDir.baselines
            ∧ (fs2 (diffImagePath (baselinePath test_name))).isSome)) :=
  ⟨rfl, rfl, rfl,
    C10_diff_always_written CVUtilsDefault false fsBW pBWa pBWb whitePix1 blackPix1
      rfl rfl rfl⟩

/-- C10 counterexample: both inputs decode successfully, yet no diff image is
written and no diff path is reported — with skimage present, 1×1 images make
the similarity routine raise before the diff-image step, and the comparison
returns an error dictionary leaving the filesystem untouched. -/
theorem C10_counterexample :
    imread fsBW pBWa = some whitePix1
    ∧ imread fsBW pBWb = some blackPix1
    ∧ (compare_screenshots CVUtilsDefault true fsBW pBWa pBWb).1.diff_image = none
    ∧ (compare_screenshots CVUtilsDefault true fsBW pBWa pBWb).2 = fsBW :=
  ⟨rfl, rfl, rfl, rfl⟩

end VisualAgent
